import Mathlib

/-!
Verification of the resilient HTTP request executor in `api_integration.py`
(`SyndigoClient` and its retry/backoff helpers).

The transport layer, the uuid generator and the uniform random sampler are
modelled as oracles (explicit function parameters); everything else is a
direct shallow embedding of the Python source:

* `RETRYABLE_STATUS`, `NON_RETRYABLE_STATUS`, `is_retryable` — the module
  level retry helpers;
* `backoff_delay` — exponential backoff with full jitter (reals are
  modelled as rationals);
* `mkSyndigoClient` — the constructor (`__init__`);
* `mkOutHeaders` and `requestLoop` / `SyndigoClient.request` — the
  per-attempt header construction and the `while True` retry loop.

The executor returns an `ExecTrace`: the ordered list of physical attempts
(with the headers actually sent), the ordered list of sleeps performed
between attempts, and the terminal outcome (a returned response, or the
`RuntimeError` raised when no response was ever obtained).
-/

/-- A transport-level exception (connection failure, timeout, DNS failure):
the situation in which `httpx.Client.request` raises and no response is
obtained.  Only its class name is observable in the source (used in the
`http-exception` log event and the final `RuntimeError` message). -/
structure TransportErr where
  name : String
deriving DecidableEq, Repr

/-- An HTTP response as far as the executor observes it: status code,
response headers, and body size. -/
structure Response where
  status_code : Nat
  headers : List (String × String)
  body_size : Nat
deriving DecidableEq, Repr

/-- Case-insensitive header lookup, modelling `httpx.Headers.get`. -/
def respHeaderGet (hs : List (String × String)) (k : String) : Option String :=
  (hs.find? (fun p => p.1.toLower == k.toLower)).map (fun p => p.2)

/-- Case-sensitive lookup in a Python `dict` modelled as an insertion-ordered
association list. -/
def dictGet (d : List (String × String)) (k : String) : Option String :=
  (d.find? (fun p => p.1 == k)).map (fun p => p.2)

/-- `d[k] = v` on a Python `dict` modelled as an insertion-ordered
association list: overwrite in place if the key is present, else append. -/
def dictSet (d : List (String × String)) (k v : String) : List (String × String) :=
  if d.any (fun p => p.1 == k) then
    d.map (fun p => if p.1 == k then (k, v) else p)
  else
    d ++ [(k, v)]

/-- `dict.update(other)`: successive assignment of every pair of `other`. -/
def dictUpdate (d other : List (String × String)) : List (String × String) :=
  other.foldl (fun acc kv => dictSet acc kv.1 kv.2) d

/-- `base_url.rstrip("/")`: drop every trailing `/`. -/
def rstripSlashes (s : String) : String :=
  ⟨(s.toList.reverse.dropWhile (fun c => c = '/')).reverse⟩

/-- The digits of a nonempty list of characters read as a natural number;
`none` if the list is empty or contains a non-digit. -/
def natOfDigits : List Char → Option Nat
  | [] => none
  | cs => cs.foldlM (fun acc c => if c.isDigit then some (acc * 10 + (c.toNat - 48)) else none) 0

/-- ASCII whitespace that Python `float()` strips from both ends of its
argument (space, tab, newline, carriage return, vertical tab, form feed). -/
def isPyWs (c : Char) : Bool :=
  c = ' ' || c = '\t' || c = '\n' || c = '\r' || c.toNat = 11 || c.toNat = 12

/-- No two adjacent underscores in the run. -/
def noAdjacentUnderscores : List Char → Bool
  | '_' :: '_' :: _ => false
  | _ :: rest => noAdjacentUnderscores rest
  | [] => true

/-- A digit run as Python float literals accept it: nonempty, first and last
characters are ASCII digits, every character is a digit or an underscore,
and every underscore sits between two digits (no adjacent underscores). -/
def validDigitRun (cs : List Char) : Bool :=
  match cs.head?, cs.getLast? with
  | some c, some d =>
    c.isDigit && d.isDigit && cs.all (fun x => x.isDigit || x = '_') &&
      noAdjacentUnderscores cs
  | _, _ => false

/-- Value of a digit run with underscore grouping; `none` if invalid. -/
def natOfDigitsU (cs : List Char) : Option Nat :=
  if validDigitRun cs then natOfDigits (cs.filter (fun c => c ≠ '_')) else none

/-- The mantissa of a Python float literal (sign already removed):
`digits`, `digits.digits`, `digits.` or `.digits`, with underscore grouping
inside each digit run. -/
def pyMantissa (cs : List Char) : Option ℚ :=
  match cs.splitOn '.' with
  | [ip] => (natOfDigitsU ip).map (fun n => (n : ℚ))
  | [ip, fp] =>
    if ip.isEmpty ∧ fp.isEmpty then none
    else
      match (if ip.isEmpty then some 0 else natOfDigitsU ip),
            (if fp.isEmpty then some 0 else natOfDigitsU fp) with
      | some i, some f =>
        some ((i : ℚ) + (f : ℚ) / (10 ^ (fp.filter (fun c => c ≠ '_')).length))
      | _, _ => none
  | _ => none

/-- The exponent part of a Python float literal (after `e`/`E`): an optional
sign followed by a digit run. -/
def pyExponent (cs : List Char) : Option Int :=
  match cs with
  | '-' :: rest => (natOfDigitsU rest).map (fun n => -(n : Int))
  | '+' :: rest => (natOfDigitsU rest).map (fun n => (n : Int))
  | _ => (natOfDigitsU cs).map (fun n => (n : Int))

/-- Models Python `float()` on finite decimal numerals: surrounding ASCII
whitespace is stripped, then an optional sign, a mantissa (`digits`,
`digits.digits`, `digits.` or `.digits`, with single-underscore digit
grouping) and an optional `e`/`E` exponent with its own optional sign.
Values are exact rationals: the binary rounding of IEEE doubles is
idealized away.  The `inf`/`nan` spellings are treated as parse failures:
`float()` accepts them, but the executor converts the result with
`int(float(ra) * 1000)`, which then raises (OverflowError for infinities,
ValueError for nan), so neither can ever yield a positive Retry-After hint
in the source either (see `retryAfterMs`).  Non-ASCII digit and space forms
are out of scope. -/
def pyFloat (s : String) : Option ℚ :=
  let cs := ((s.toList.dropWhile isPyWs).reverse.dropWhile isPyWs).reverse
  let signAndRest : ℚ × List Char :=
    match cs with
    | '-' :: rest => (-1, rest)
    | '+' :: rest => (1, rest)
    | _ => (1, cs)
  let sgn := signAndRest.1
  match (signAndRest.2.map (fun c => if c = 'E' then 'e' else c)).splitOn 'e' with
  | [mant] => (pyMantissa mant).map (fun m => sgn * m)
  | [mant, ex] =>
    match pyMantissa mant, pyExponent ex with
    | some m, some e => some (sgn * m * (10 : ℚ) ^ e)
    | _, _ => none
  | _ => none

/-- The smallest positive rational that string-to-double conversion rounds
to infinity under round-to-nearest-even: the midpoint between the largest
finite double `2 ^ 1024 - 2 ^ 971` and `2 ^ 1024`. -/
def floatOverflowThreshold : ℚ := 2 ^ 1024 - 2 ^ 970

/-- Python `int()` on a rational: truncation toward zero. -/
def pyInt (q : ℚ) : Int := Int.tdiv q.num q.den

/-- `RETRYABLE_STATUS = {429, 502, 503, 504}`. -/
def RETRYABLE_STATUS : List Nat := [429, 502, 503, 504]

/-- `NON_RETRYABLE_STATUS = {400, 401, 403, 404, 409, 422}`. -/
def NON_RETRYABLE_STATUS : List Nat := [400, 401, 403, 404, 409, 422]

/-- `is_retryable(status_code, exc)` from the source: any exception is
retryable; otherwise membership in `RETRYABLE_STATUS`; a missing status
without an exception is not retryable. -/
def is_retryable (status_code : Option Nat) (exc : Option TransportErr) : Bool :=
  match exc with
  | some _ => true
  | none =>
    match status_code with
    | some s => decide (s ∈ RETRYABLE_STATUS)
    | none => false

/-- `backoff_delay(attempt, base, cap)`: exponential value capped at `cap`,
then a sample drawn from `[0.5×, 1.5×]` of it.  `uniform` is the
`random.uniform` oracle. -/
def backoff_delay (uniform : ℚ → ℚ → ℚ) (attempt : Nat) (base cap : ℚ) : ℚ :=
  let e := min cap (base * 2 ^ (attempt - 1))
  uniform (e * (1/2)) (e * (3/2))

/-- The three-way decision of the failure classifier.  The source realizes
it through `is_retryable` plus the branch structure of
`SyndigoClient.request`. -/
inductive Decision where
  | Success
  | Retryable
  | NonRetryable
deriving DecidableEq, Repr

/-- The classification of one physical attempt's outcome, as realized by the
branch structure of `SyndigoClient.request`: on an exception the retry
decision consults `is_retryable(status, exc)` (always true there); on a
response, `2xx` returns as success, a `NON_RETRYABLE_STATUS` returns
immediately, and otherwise the retry decision consults
`is_retryable(status, None)`, returning the response as-is (no retry) when it
is false. -/
def classify (status : Option Nat) (exc : Option TransportErr) : Decision :=
  match exc with
  | some e => if is_retryable status (some e) then Decision.Retryable else Decision.NonRetryable
  | none =>
    match status with
    | some s =>
      if 200 ≤ s ∧ s < 300 then Decision.Success
      else if s ∈ NON_RETRYABLE_STATUS then Decision.NonRetryable
      else if is_retryable (some s) none then Decision.Retryable
      else Decision.NonRetryable
    | none => Decision.NonRetryable

/-- The configuration `SyndigoClient.__init__` stores (the `httpx.Client`
with its timeout and Basic-Auth credentials is the external transport and is
not part of the model). -/
structure SyndigoClient where
  base_url : String
  run_id : String
  max_attempts : Nat
  user_agent : String
deriving DecidableEq, Repr

/-- `SyndigoClient.__init__`: strips trailing slashes from the base URL,
takes the caller's run id when truthy (falling back to a fresh uuid,
supplied here as the oracle value `uuid_run`), and clamps the attempt limit
with `max(1, max_attempts)`. -/
def mkSyndigoClient (base_url : String) (run_id : Option String) (uuid_run : String)
    (max_attempts : Int) (user_agent : String) : SyndigoClient :=
  { base_url := rstripSlashes base_url
    run_id := match run_id with
      | some r => if r = "" then uuid_run else r
      | none => uuid_run
    max_attempts := (max 1 max_attempts).toNat
    user_agent := user_agent }

/-- The `out_headers` dict built at the top of every loop iteration of
`SyndigoClient.request`: the four base headers, then the `Idempotency-Key`
assignment guarded by the key's truthiness, then `update(headers)` with the
caller's extra headers (a no-op when that dict is falsy, i.e. empty). -/
def mkOutHeaders (c : SyndigoClient) (headers : List (String × String))
    (idempotency_key : Option String) (request_id : String) : List (String × String) :=
  let base := [("User-Agent", c.user_agent), ("X-Request-ID", request_id),
               ("X-Run-ID", c.run_id), ("Accept", "application/json")]
  let withKey := match idempotency_key with
    | some k => if k = "" then base else dictSet base "Idempotency-Key" k
    | none => base
  dictUpdate withKey headers

/-- What one physical attempt yields: a response from the server, or a
transport-level exception. -/
inductive AttemptResult where
  | ok (resp : Response)
  | exn (e : TransportErr)
deriving DecidableEq, Repr

/-- Trace record of one physical attempt: the fresh per-attempt request id,
the headers actually sent, and what the transport returned. -/
structure AttemptRecord where
  request_id : String
  headers_sent : List (String × String)
  result : AttemptResult
deriving DecidableEq, Repr

/-- How a logical call ends: `return resp` somewhere in the loop, or
`raise RuntimeError(...)` wrapping the last transport exception when no
response was ever obtained. -/
inductive CallOutcome where
  | returned (resp : Response)
  | raisedNoResponse (last : TransportErr)
deriving DecidableEq, Repr

/-- Observable behaviour of one logical call: the physical attempts in
order, the `time.sleep` durations (in seconds) in order, and the terminal
outcome. -/
structure ExecTrace where
  attempts : List AttemptRecord
  sleeps : List ℚ
  outcome : CallOutcome
deriving DecidableEq, Repr

/-- `retry_after_ms` as computed inside the `try` block of one loop
iteration: `0` unless the status is retryable and the response carries a
truthy `Retry-After` header whose value parses, in which case
`int(float(ra) * 1000)`; a ValueError (malformed value, or nan from
`int()`) is caught and leaves it `0`.  A value whose magnitude in
milliseconds reaches the double overflow boundary makes the source's
`int()` raise OverflowError instead, which escapes the inner
`except ValueError` and sends the attempt down the outer exception handler
— a path whose `retry_after_ms` is also `0` and whose retry decision and
delay are the same (`is_retryable` is true either way on a retryable
status), so it is modelled as `0` here. -/
def retryAfterMs (resp : Response) : Int :=
  if resp.status_code ∈ RETRYABLE_STATUS then
    match respHeaderGet resp.headers "Retry-After" with
    | some ra =>
      if ra = "" then 0
      else
        match pyFloat ra with
        | some q =>
          if floatOverflowThreshold ≤ q * 1000 ∨ q * 1000 ≤ -floatOverflowThreshold then 0
          else pyInt (q * 1000)
        | none => 0
    | none => 0
  else 0

/-- The `while True` loop of `SyndigoClient.request`, from the iteration
with counter `attempt` onward.  `prevResp` is the `resp` local: the last
response obtained on an earlier iteration, if any (`httpx` exceptions leave
it untouched).  Oracles: `transport a` is what the `httpx` call of attempt
`a` yields, `uuid a` is the `uuid.uuid4()` drawn for attempt `a`, and
`uniform a` is the `random.uniform` sampler used if attempt `a` ends in a
jittered retry delay.  The `or` in the retry decision is rendered as nested
conditionals (Python `or` short-circuits). -/
def requestLoop (c : SyndigoClient) (headers : List (String × String))
    (idempotency_key : Option String) (transport : Nat → AttemptResult)
    (uuid : Nat → String) (uniform : Nat → ℚ → ℚ → ℚ)
    (attempt : Nat) (prevResp : Option Response) : ExecTrace :=
  let request_id := uuid attempt
  let out_headers := mkOutHeaders c headers idempotency_key request_id
  match transport attempt with
  | AttemptResult.ok resp =>
    let rec0 : AttemptRecord := ⟨request_id, out_headers, AttemptResult.ok resp⟩
    let status := resp.status_code
    let retry_after_ms := retryAfterMs resp
    if 200 ≤ status ∧ status < 300 then
      -- http-success: return resp
      ⟨[rec0], [], CallOutcome.returned resp⟩
    else if status ∈ NON_RETRYABLE_STATUS then
      -- non-retryable: return immediately
      ⟨[rec0], [], CallOutcome.returned resp⟩
    else if attempt ≥ c.max_attempts then
      -- retry decision, first disjunct: resp is not None here
      ⟨[rec0], [], CallOutcome.returned resp⟩
    else if ¬ is_retryable (some status) none then
      -- retry decision, second disjunct: resp is not None here
      ⟨[rec0], [], CallOutcome.returned resp⟩
    else
      let delay : ℚ :=
        if retry_after_ms > 0 then ((min 10000 retry_after_ms : Int) : ℚ) / 1000
        else backoff_delay (uniform attempt) attempt (1/2) 4
      let rest := requestLoop c headers idempotency_key transport uuid uniform
        (attempt + 1) (some resp)
      ⟨rec0 :: rest.attempts, delay :: rest.sleeps, rest.outcome⟩
  | AttemptResult.exn e =>
    let rec0 : AttemptRecord := ⟨request_id, out_headers, AttemptResult.exn e⟩
    -- status is None and retry_after_ms is 0 on this path
    if attempt ≥ c.max_attempts then
      match prevResp with
      | some r => ⟨[rec0], [], CallOutcome.returned r⟩
      | none => ⟨[rec0], [], CallOutcome.raisedNoResponse e⟩
    else if ¬ is_retryable none (some e) then
      match prevResp with
      | some r => ⟨[rec0], [], CallOutcome.returned r⟩
      | none => ⟨[rec0], [], CallOutcome.raisedNoResponse e⟩
    else
      let delay : ℚ := backoff_delay (uniform attempt) attempt (1/2) 4
      let rest := requestLoop c headers idempotency_key transport uuid uniform
        (attempt + 1) prevResp
      ⟨rec0 :: rest.attempts, delay :: rest.sleeps, rest.outcome⟩
  termination_by c.max_attempts - attempt
  decreasing_by all_goals omega

/-- `SyndigoClient.request`: the loop entered with `attempt = 1` and
`resp = None`.  The method, path, query parameters and body are forwarded to
the transport and to logging only; they do not influence the control flow
modelled here, so they are absorbed into the `transport` oracle. -/
def SyndigoClient.request (c : SyndigoClient) (headers : List (String × String))
    (idempotency_key : Option String) (transport : Nat → AttemptResult)
    (uuid : Nat → String) (uniform : Nat → ℚ → ℚ → ℚ) : ExecTrace :=
  requestLoop c headers idempotency_key transport uuid uniform 1 none

/-! Concrete fixtures used by the witness and counterexample theorems. -/

def resp200 : Response := ⟨200, [], 0⟩

def resp404 : Response := ⟨404, [], 0⟩

def resp503 : Response := ⟨503, [], 0⟩

def witClient (m : Nat) : SyndigoClient :=
  ⟨"https://api.example.com/v1", "run-1", m, "syndigo-integration/1.0"⟩

def witUuid : Nat → String := fun a => String.mk (List.replicate a 'x')

def witUniform : Nat → ℚ → ℚ → ℚ := fun _a lo _hi => lo

def resp429RA120 : Response := ⟨429, [("Retry-After", "120")], 0⟩

def resp429Soon : Response := ⟨429, [("Retry-After", "soon")], 0⟩

def resp429Zero : Response := ⟨429, [("Retry-After", "0")], 0⟩

def tr120 : Nat → AttemptResult :=
  fun a => if a = 1 then AttemptResult.ok resp429RA120 else AttemptResult.ok resp200

def trSoon : Nat → AttemptResult :=
  fun a => if a = 1 then AttemptResult.ok resp429Soon else AttemptResult.ok resp200

def trZero : Nat → AttemptResult :=
  fun a => if a = 1 then AttemptResult.ok resp429Zero else AttemptResult.ok resp200

def resp429Exp : Response := ⟨429, [("Retry-After", "1e2")], 0⟩

def tr2step : Nat → AttemptResult :=
  fun a => if a = 1 then AttemptResult.ok resp503
    else if a = 2 then AttemptResult.ok resp429Exp else AttemptResult.ok resp200

lemma mem_retryable_facts {s : Nat} (h : s ∈ RETRYABLE_STATUS) :
    ¬(200 ≤ s ∧ s < 300) ∧ s ∉ NON_RETRYABLE_STATUS ∧ is_retryable (some s) none = true := by
  simp only [RETRYABLE_STATUS, List.mem_cons, List.not_mem_nil, or_false] at h
  rcases h with rfl | rfl | rfl | rfl <;> refine ⟨by omega, by decide, by decide⟩

section StepLemmas

variable (c : SyndigoClient) (hs : List (String × String)) (ik : Option String)
  (tr : Nat → AttemptResult) (u : Nat → String) (U : Nat → ℚ → ℚ → ℚ)

lemma requestLoop_ok_success {a : Nat} {p : Option Response} {r : Response}
    (h : tr a = AttemptResult.ok r) (h2 : 200 ≤ r.status_code ∧ r.status_code < 300) :
    requestLoop c hs ik tr u U a p =
      ⟨[⟨u a, mkOutHeaders c hs ik (u a), AttemptResult.ok r⟩], [], CallOutcome.returned r⟩ := by
  rw [requestLoop, h]; simp [h2]

lemma requestLoop_ok_nonretryable {a : Nat} {p : Option Response} {r : Response}
    (h : tr a = AttemptResult.ok r) (hnr : r.status_code ∈ NON_RETRYABLE_STATUS) :
    requestLoop c hs ik tr u U a p =
      ⟨[⟨u a, mkOutHeaders c hs ik (u a), AttemptResult.ok r⟩], [], CallOutcome.returned r⟩ := by
  have h2 : ¬(200 ≤ r.status_code ∧ r.status_code < 300) := by
    simp only [NON_RETRYABLE_STATUS, List.mem_cons, List.not_mem_nil, or_false] at hnr
    rcases hnr with h' | h' | h' | h' | h' | h' <;> omega
  rw [requestLoop, h]; simp [h2, hnr]

lemma requestLoop_ok_exhausted {a : Nat} {p : Option Response} {r : Response}
    (h : tr a = AttemptResult.ok r) (hrs : r.status_code ∈ RETRYABLE_STATUS)
    (hge : a ≥ c.max_attempts) :
    requestLoop c hs ik tr u U a p =
      ⟨[⟨u a, mkOutHeaders c hs ik (u a), AttemptResult.ok r⟩], [], CallOutcome.returned r⟩ := by
  obtain ⟨h2, hnr, _⟩ := mem_retryable_facts hrs
  rw [requestLoop, h]; simp [h2, hnr, hge]

lemma requestLoop_ok_retry {a : Nat} {p : Option Response} {r : Response}
    (h : tr a = AttemptResult.ok r) (hrs : r.status_code ∈ RETRYABLE_STATUS)
    (hlt : a < c.max_attempts) :
    requestLoop c hs ik tr u U a p =
      ⟨⟨u a, mkOutHeaders c hs ik (u a), AttemptResult.ok r⟩ ::
          (requestLoop c hs ik tr u U (a + 1) (some r)).attempts,
        (if retryAfterMs r > 0 then ((min 10000 (retryAfterMs r) : Int) : ℚ) / 1000
          else backoff_delay (U a) a (1/2) 4) ::
          (requestLoop c hs ik tr u U (a + 1) (some r)).sleeps,
        (requestLoop c hs ik tr u U (a + 1) (some r)).outcome⟩ := by
  obtain ⟨h2, hnr, hret⟩ := mem_retryable_facts hrs
  rw [requestLoop, h]
  simp [h2, hnr, hret, Nat.not_le.mpr hlt]

lemma requestLoop_exn_stop {a : Nat} {p : Option Response} {e : TransportErr}
    (h : tr a = AttemptResult.exn e) (hge : a ≥ c.max_attempts) :
    requestLoop c hs ik tr u U a p =
      ⟨[⟨u a, mkOutHeaders c hs ik (u a), AttemptResult.exn e⟩], [],
        match p with
        | some r => CallOutcome.returned r
        | none => CallOutcome.raisedNoResponse e⟩ := by
  rw [requestLoop, h]
  simp only [hge, if_pos]
  cases p <;> simp

lemma requestLoop_exn_retry {a : Nat} {p : Option Response} {e : TransportErr}
    (h : tr a = AttemptResult.exn e) (hlt : a < c.max_attempts) :
    requestLoop c hs ik tr u U a p =
      ⟨⟨u a, mkOutHeaders c hs ik (u a), AttemptResult.exn e⟩ ::
          (requestLoop c hs ik tr u U (a + 1) p).attempts,
        backoff_delay (U a) a (1/2) 4 :: (requestLoop c hs ik tr u U (a + 1) p).sleeps,
        (requestLoop c hs ik tr u U (a + 1) p).outcome⟩ := by
  rw [requestLoop, h]
  simp [is_retryable, Nat.not_le.mpr hlt]

end StepLemmas

section LoopInduction

variable (c : SyndigoClient) (hs : List (String × String)) (ik : Option String)
  (tr : Nat → AttemptResult) (u : Nat → String) (U : Nat → ℚ → ℚ → ℚ)

lemma requestLoop_all_retryable (rs : Nat → Response)
    (htr : ∀ k, tr k = AttemptResult.ok (rs k))
    (hst : ∀ k, (rs k).status_code ∈ RETRYABLE_STATUS) :
    ∀ n a p, c.max_attempts - a = n → a ≤ c.max_attempts →
      (requestLoop c hs ik tr u U a p).attempts.length = c.max_attempts - a + 1 ∧
      (requestLoop c hs ik tr u U a p).outcome = CallOutcome.returned (rs c.max_attempts) := by
  intro n
  induction n with
  | zero =>
    intro a p h0 hle
    have ha : a = c.max_attempts := by omega
    rw [requestLoop_ok_exhausted c hs ik tr u U (htr a) (hst a) (by omega)]
    subst ha
    simp
  | succ n ih =>
    intro a p hn hle
    have hlt : a < c.max_attempts := by omega
    rw [requestLoop_ok_retry c hs ik tr u U (htr a) (hst a) hlt]
    obtain ⟨hlen, hout⟩ := ih (a + 1) (some (rs a)) (by omega) (by omega)
    constructor
    · simp [hlen]; omega
    · simpa using hout

lemma requestLoop_all_exn (es : Nat → TransportErr)
    (htr : ∀ k, tr k = AttemptResult.exn (es k)) :
    ∀ n a, c.max_attempts - a = n → a ≤ c.max_attempts →
      (requestLoop c hs ik tr u U a none).attempts.length = c.max_attempts - a + 1 ∧
      (requestLoop c hs ik tr u U a none).outcome =
        CallOutcome.raisedNoResponse (es c.max_attempts) := by
  intro n
  induction n with
  | zero =>
    intro a h0 hle
    have ha : a = c.max_attempts := by omega
    rw [requestLoop_exn_stop c hs ik tr u U (htr a) (by omega)]
    subst ha
    simp
  | succ n ih =>
    intro a hn hle
    have hlt : a < c.max_attempts := by omega
    rw [requestLoop_exn_retry c hs ik tr u U (htr a) hlt]
    obtain ⟨hlen, hout⟩ := ih (a + 1) (by omega) (by omega)
    constructor
    · simp [hlen]; omega
    · simpa using hout

lemma requestLoop_terminal (a : Nat) (p : Option Response) (hge : a ≥ c.max_attempts) :
    (requestLoop c hs ik tr u U a p).attempts =
      [⟨u a, mkOutHeaders c hs ik (u a), tr a⟩] ∧
    (requestLoop c hs ik tr u U a p).sleeps = [] := by
  cases h : tr a with
  | ok r =>
    by_cases h2 : 200 ≤ r.status_code ∧ r.status_code < 300
    · rw [requestLoop_ok_success c hs ik tr u U h h2]; simp
    · by_cases hnr : r.status_code ∈ NON_RETRYABLE_STATUS
      · rw [requestLoop_ok_nonretryable c hs ik tr u U h hnr]; simp
      · rw [requestLoop]; rw [h]; simp [h2, hnr, hge]
  | exn e =>
    rw [requestLoop_exn_stop c hs ik tr u U h hge]
    cases p <;> simp

lemma requestLoop_attempts_shape :
    ∀ n a p, c.max_attempts - a ≤ n →
      ∃ m, 0 < m ∧ (requestLoop c hs ik tr u U a p).attempts =
        (List.range m).map
          (fun i => ⟨u (a + i), mkOutHeaders c hs ik (u (a + i)), tr (a + i)⟩) := by
  intro n
  induction n with
  | zero =>
    intro a p h0
    refine ⟨1, Nat.one_pos, ?_⟩
    rw [(requestLoop_terminal c hs ik tr u U a p (by omega)).1]
    simp [List.range_succ]
  | succ n ih =>
    intro a p hn
    by_cases hge : a ≥ c.max_attempts
    · refine ⟨1, Nat.one_pos, ?_⟩
      rw [(requestLoop_terminal c hs ik tr u U a p hge).1]
      simp [List.range_succ]
    · have hlt : a < c.max_attempts := by omega
      cases h : tr a with
      | ok r =>
        by_cases h2 : 200 ≤ r.status_code ∧ r.status_code < 300
        · refine ⟨1, Nat.one_pos, ?_⟩
          rw [requestLoop_ok_success c hs ik tr u U h h2]
          simp [List.range_succ, h]
        · by_cases hnr : r.status_code ∈ NON_RETRYABLE_STATUS
          · refine ⟨1, Nat.one_pos, ?_⟩
            rw [requestLoop_ok_nonretryable c hs ik tr u U h hnr]
            simp [List.range_succ, h]
          · by_cases hret : r.status_code ∈ RETRYABLE_STATUS
            · obtain ⟨m, hm, heq⟩ := ih (a + 1) (some r) (by omega)
              refine ⟨m + 1, by omega, ?_⟩
              rw [requestLoop_ok_retry c hs ik tr u U h hret hlt]
              rw [List.range_succ_eq_map]
              simp only [List.map_cons, List.map_map, heq, List.cons.injEq]
              refine ⟨by simp [h], ?_⟩
              congr 1
              funext i
              simp [Function.comp, Nat.succ_eq_add_one, Nat.add_comm, Nat.add_assoc,
                Nat.add_left_comm]
            · refine ⟨1, Nat.one_pos, ?_⟩
              have hret' : is_retryable (some r.status_code) none = false := by
                simp [is_retryable, hret]
              rw [requestLoop]; rw [h]; simp [h2, hnr, hret', List.range_succ, h]
      | exn e =>
        obtain ⟨m, hm, heq⟩ := ih (a + 1) p (by omega)
        refine ⟨m + 1, by omega, ?_⟩
        rw [requestLoop_exn_retry c hs ik tr u U h hlt]
        rw [List.range_succ_eq_map]
        simp only [List.map_cons, List.map_map, heq, List.cons.injEq]
        refine ⟨by simp [h], ?_⟩
        congr 1
        funext i
        simp [Function.comp, Nat.succ_eq_add_one, Nat.add_comm, Nat.add_assoc,
          Nat.add_left_comm]

lemma requestLoop_sleeps_nth :
    ∀ (j a₀ : Nat) (p : Option Response),
      (∀ k, a₀ ≤ k → k < a₀ + j →
        (∃ e, tr k = AttemptResult.exn e) ∨
        (∃ rk, tr k = AttemptResult.ok rk ∧ rk.status_code ∈ RETRYABLE_STATUS)) →
      a₀ + j < c.max_attempts →
      ∀ r, tr (a₀ + j) = AttemptResult.ok r → r.status_code ∈ RETRYABLE_STATUS →
        (requestLoop c hs ik tr u U a₀ p).sleeps[j]? =
          some (if retryAfterMs r > 0
            then ((min 10000 (retryAfterMs r) : Int) : ℚ) / 1000
            else backoff_delay (U (a₀ + j)) (a₀ + j) (1/2) 4) := by
  intro j
  induction j with
  | zero =>
    intro a₀ p hrange hlt r htr2 hrs
    rw [Nat.add_zero] at hlt htr2 ⊢
    rw [requestLoop_ok_retry c hs ik tr u U htr2 hrs hlt]
    simp
  | succ j ih =>
    intro a₀ p hrange hlt r htr2 hrs
    have ha₀ : a₀ < c.max_attempts := by omega
    have hidx : a₀ + 1 + j = a₀ + (j + 1) := by omega
    have ih2 := fun (p2 : Option Response) => ih (a₀ + 1) p2
      (fun k hk1 hk2 => hrange k (by omega) (by omega))
      (by omega) r (by rw [hidx]; exact htr2) hrs
    rcases hrange a₀ (le_refl _) (by omega) with ⟨e, he⟩ | ⟨rk, hrk, hrkrs⟩
    · rw [requestLoop_exn_retry c hs ik tr u U he ha₀]
      have h2 := ih2 p
      rw [hidx] at h2
      simpa using h2
    · rw [requestLoop_ok_retry c hs ik tr u U hrk hrkrs ha₀]
      have h2 := ih2 (some rk)
      rw [hidx] at h2
      simpa using h2

end LoopInduction

section DictLemmas

lemma find?_overwrite (d : List (String × String)) (k v : String) :
    ((d.map (fun p => if p.1 == k then (k, v) else p)).find? (fun p => p.1 == k)) =
      (d.find? (fun p => p.1 == k)).map (fun _x => (k, v)) := by
  induction d with
  | nil => rfl
  | cons p t ih =>
    simp only [List.map_cons]
    by_cases hp : p.1 = k
    · rw [if_pos (by simpa using hp),
          List.find?_cons_of_pos _ (by simp),
          List.find?_cons_of_pos _ (by simpa using hp)]
      rfl
    · rw [if_neg (by simpa using hp),
          List.find?_cons_of_neg _ (by simpa using hp),
          List.find?_cons_of_neg _ (by simpa using hp)]
      exact ih

lemma find?_overwrite_ne (d : List (String × String)) (k v k' : String) (hne : k ≠ k') :
    ((d.map (fun p => if p.1 == k then (k, v) else p)).find? (fun p => p.1 == k')) =
      d.find? (fun p => p.1 == k') := by
  induction d with
  | nil => rfl
  | cons p t ih =>
    simp only [List.map_cons]
    by_cases hp : p.1 = k
    · have hpk' : ¬(p.1 == k') = true := by simp [hp, hne]
      have hkv : ¬(((k, v) : String × String).1 == k') = true := by simpa using hne
      rw [if_pos (by simpa using hp),
          @List.find?_cons_of_neg _ (fun q => q.1 == k') ((k, v) : String × String) _ hkv,
          @List.find?_cons_of_neg _ (fun q => q.1 == k') p _ hpk']
      exact ih
    · rw [if_neg (by simpa using hp)]
      by_cases hp' : p.1 = k'
      · rw [List.find?_cons_of_pos _ (by simpa using hp'),
            List.find?_cons_of_pos _ (by simpa using hp')]
      · rw [List.find?_cons_of_neg _ (by simpa using hp'),
            List.find?_cons_of_neg _ (by simpa using hp')]
        exact ih

lemma dictGet_dictSet_self (d : List (String × String)) (k v : String) :
    dictGet (dictSet d k v) k = some v := by
  unfold dictGet dictSet
  by_cases hany : d.any (fun p => p.1 == k)
  · rw [if_pos hany, find?_overwrite]
    rw [List.any_eq_true] at hany
    obtain ⟨p, hp, hpk⟩ := hany
    have hne : d.find? (fun p => p.1 == k) ≠ none := by
      intro hnone
      rw [List.find?_eq_none] at hnone
      exact (hnone p hp) hpk
    obtain ⟨q, hq⟩ := Option.ne_none_iff_exists'.mp hne
    simp [hq]
  · rw [if_neg hany, List.find?_append]
    have hnone : d.find? (fun p => p.1 == k) = none := by
      rw [List.find?_eq_none]
      intro p hp hc
      exact hany (List.any_eq_true.mpr ⟨p, hp, hc⟩)
    rw [hnone]
    simp [List.find?]

lemma dictGet_dictSet_ne (d : List (String × String)) (k v k' : String) (hne : k ≠ k') :
    dictGet (dictSet d k v) k' = dictGet d k' := by
  unfold dictGet dictSet
  by_cases hany : d.any (fun p => p.1 == k)
  · rw [if_pos hany, find?_overwrite_ne _ _ _ _ hne]
  · rw [if_neg hany, List.find?_append]
    cases hd : d.find? (fun p => p.1 == k') with
    | some q => simp [hd]
    | none =>
      rw [List.find?_cons_of_neg _ (by simpa using hne)]
      simp [List.find?]

lemma dictGet_dictUpdate_not_mem (d other : List (String × String)) (k' : String)
    (h : ∀ p ∈ other, p.1 ≠ k') :
    dictGet (dictUpdate d other) k' = dictGet d k' := by
  induction other generalizing d with
  | nil => rfl
  | cons p t ih =>
    unfold dictUpdate
    simp only [List.foldl_cons]
    rw [show (List.foldl (fun acc kv => dictSet acc kv.1 kv.2) (dictSet d p.1 p.2) t)
        = dictUpdate (dictSet d p.1 p.2) t from rfl]
    rw [ih (dictSet d p.1 p.2) (fun q hq => h q (List.mem_cons_of_mem p hq))]
    exact dictGet_dictSet_ne _ _ _ _ (h p (List.mem_cons_self p t))

end DictLemmas

section HeaderLemmas

variable (c : SyndigoClient) (hs : List (String × String)) (rid : String)

lemma mkOutHeaders_xrid (ik : Option String) (hh : ∀ p ∈ hs, p.1 ≠ "X-Request-ID") :
    dictGet (mkOutHeaders c hs ik rid) "X-Request-ID" = some rid := by
  unfold mkOutHeaders dictUpdate
  rw [show ∀ d : List (String × String),
      List.foldl (fun acc kv => dictSet acc kv.1 kv.2) d hs = dictUpdate d hs
      from fun d => rfl]
  rw [dictGet_dictUpdate_not_mem _ _ _ hh]
  cases ik with
  | none => simp [dictGet, List.find?]
  | some k =>
    by_cases hk : k = ""
    · simp [hk, dictGet, List.find?]
    · simp only [if_neg hk]
      rw [dictGet_dictSet_ne _ _ _ _ (by decide)]
      simp [dictGet, List.find?]

lemma mkOutHeaders_idem_some (k : String) (hk : k ≠ "")
    (hh : ∀ p ∈ hs, p.1 ≠ "Idempotency-Key") :
    dictGet (mkOutHeaders c hs (some k) rid) "Idempotency-Key" = some k := by
  unfold mkOutHeaders dictUpdate
  rw [show ∀ d : List (String × String),
      List.foldl (fun acc kv => dictSet acc kv.1 kv.2) d hs = dictUpdate d hs
      from fun d => rfl]
  rw [dictGet_dictUpdate_not_mem _ _ _ hh]
  simp only [if_neg hk]
  exact dictGet_dictSet_self _ _ _

lemma mkOutHeaders_idem_empty (hh : ∀ p ∈ hs, p.1 ≠ "Idempotency-Key") :
    dictGet (mkOutHeaders c hs (some "") rid) "Idempotency-Key" = none := by
  unfold mkOutHeaders dictUpdate
  rw [show ∀ d : List (String × String),
      List.foldl (fun acc kv => dictSet acc kv.1 kv.2) d hs = dictUpdate d hs
      from fun d => rfl]
  rw [dictGet_dictUpdate_not_mem _ _ _ hh]
  simp [dictGet, List.find?]

end HeaderLemmas

lemma mem_nonretryable_not_2xx {s : Nat} (h : s ∈ NON_RETRYABLE_STATUS) :
    ¬(200 ≤ s ∧ s < 300) := by
  simp only [NON_RETRYABLE_STATUS, List.mem_cons, List.not_mem_nil, or_false] at h
  rcases h with rfl | rfl | rfl | rfl | rfl | rfl <;> omega

/-- C1: the failure classifier is a pure total function of (status code,
transport error): any non-null transport error is Retryable regardless of
status; with a null error, 429/502/503/504 are Retryable, the fixed
non-retryable set is NonRetryable, 2xx is Success, and every other status is
terminal NonRetryable.  The Retryable cases agree with the source's
`is_retryable`. -/
theorem classify_table (s : Nat) (e : TransportErr) :
    classify (some s) (some e) = Decision.Retryable ∧
    classify none (some e) = Decision.Retryable ∧
    (s ∈ RETRYABLE_STATUS → classify (some s) none = Decision.Retryable) ∧
    (s ∈ NON_RETRYABLE_STATUS → classify (some s) none = Decision.NonRetryable) ∧
    (200 ≤ s ∧ s < 300 → classify (some s) none = Decision.Success) ∧
    (s ∉ RETRYABLE_STATUS → s ∉ NON_RETRYABLE_STATUS → ¬(200 ≤ s ∧ s < 300) →
      classify (some s) none = Decision.NonRetryable) ∧
    (classify (some s) none = Decision.Retryable ↔ is_retryable (some s) none = true) := by
  refine ⟨by simp [classify, is_retryable], by simp [classify, is_retryable], ?_, ?_, ?_, ?_, ?_⟩
  · intro hr
    obtain ⟨h2, hnr, hret⟩ := mem_retryable_facts hr
    simp [classify, h2, hnr, hret]
  · intro hnr
    have h2 := mem_nonretryable_not_2xx hnr
    simp [classify, h2, hnr]
  · intro h2
    simp [classify, h2]
  · intro hr hnr h2
    have hret : is_retryable (some s) none = false := by simp [is_retryable, hr]
    simp [classify, h2, hnr, hret]
  · by_cases h2 : 200 ≤ s ∧ s < 300
    · have hr : s ∉ RETRYABLE_STATUS := by
        intro hmem
        exact (mem_retryable_facts hmem).1 h2
      simp [classify, h2, is_retryable, hr]
    · by_cases hnr : s ∈ NON_RETRYABLE_STATUS
      · have hr : s ∉ RETRYABLE_STATUS := by
          intro hmem
          obtain ⟨-, hnr2, -⟩ := mem_retryable_facts hmem
          exact hnr2 hnr
        simp [classify, h2, hnr, is_retryable, hr]
      · by_cases hr : s ∈ RETRYABLE_STATUS
        · simp [classify, h2, hnr, is_retryable, hr]
        · simp [classify, h2, hnr, is_retryable, hr]

/-- C1 witness: the table evaluated at representative inputs. -/
theorem classify_table_witness :
    classify (some 503) (some ⟨"ConnectTimeout"⟩) = Decision.Retryable ∧
    classify (some 503) none = Decision.Retryable ∧
    classify (some 404) none = Decision.NonRetryable ∧
    classify (some 204) none = Decision.Success ∧
    classify (some 500) none = Decision.NonRetryable :=
  ⟨(classify_table 503 ⟨"ConnectTimeout"⟩).1,
   (classify_table 503 ⟨"ConnectTimeout"⟩).2.2.1 (by decide),
   (classify_table 404 ⟨"ConnectTimeout"⟩).2.2.2.1 (by decide),
   (classify_table 204 ⟨"ConnectTimeout"⟩).2.2.2.2.1 (by decide),
   (classify_table 500 ⟨"ConnectTimeout"⟩).2.2.2.2.2.1 (by decide) (by decide) (by decide)⟩

/-- C4: for every attempt index `a ≥ 1` and any uniform sampler that stays
within its bounds, `backoff_delay` (with the default base 0.5 and cap 4.0)
lies in `[0.5 * min(cap, base * 2 ^ (a-1)), 1.5 * min(cap, base * 2 ^ (a-1))]`. -/
theorem backoff_delay_in_jitter_interval (U : ℚ → ℚ → ℚ)
    (hU : ∀ lo hi : ℚ, lo ≤ hi → lo ≤ U lo hi ∧ U lo hi ≤ hi)
    (a : Nat) (_ha : 1 ≤ a) :
    (1/2) * min 4 ((1/2) * 2 ^ (a - 1)) ≤ backoff_delay U a (1/2) 4 ∧
    backoff_delay U a (1/2) 4 ≤ (3/2) * min 4 ((1/2) * 2 ^ (a - 1)) := by
  have hpow : (0:ℚ) ≤ (1/2) * 2 ^ (a - 1) := by positivity
  have hexp : (0:ℚ) ≤ min 4 ((1/2) * 2 ^ (a - 1)) := le_min (by norm_num) hpow
  have h := hU (min 4 ((1/2) * 2 ^ (a - 1)) * (1/2)) (min 4 ((1/2) * 2 ^ (a - 1)) * (3/2))
    (by nlinarith)
  simp only [backoff_delay]
  exact ⟨by linarith [h.1], by linarith [h.2]⟩

/-- C4 witness: the bounds at attempt 3 with the sampler that returns the
lower bound. -/
theorem backoff_delay_in_jitter_interval_witness :
    (1/2) * min 4 ((1/2) * 2 ^ (3 - 1)) ≤ backoff_delay (fun lo _hi => lo) 3 (1/2) 4 ∧
    backoff_delay (fun lo _hi => lo) 3 (1/2) 4 ≤ (3/2) * min 4 ((1/2) * 2 ^ (3 - 1)) :=
  backoff_delay_in_jitter_interval (fun lo _hi => lo)
    (fun lo hi hle => ⟨le_refl lo, hle⟩) 3 (by norm_num)

lemma request_attempts_pos (c : SyndigoClient) (hs : List (String × String))
    (ik : Option String) (tr : Nat → AttemptResult) (u : Nat → String)
    (U : Nat → ℚ → ℚ → ℚ) :
    0 < (SyndigoClient.request c hs ik tr u U).attempts.length := by
  obtain ⟨m, hm, heq⟩ :=
    requestLoop_attempts_shape c hs ik tr u U c.max_attempts 1 none (by omega)
  rw [SyndigoClient.request, heq]
  simpa using hm

/-- C9: the constructor clamps the attempt limit with `max(1, max_attempts)`,
so the stored value is at least 1 for every caller-supplied integer, and
every logical call performs at least one physical attempt. -/
theorem max_attempts_clamped_to_one (base_url : String) (run_id : Option String)
    (uuid_run : String) (m : Int) (user_agent : String) (hs : List (String × String))
    (ik : Option String) (tr : Nat → AttemptResult) (u : Nat → String)
    (U : Nat → ℚ → ℚ → ℚ) :
    1 ≤ (mkSyndigoClient base_url run_id uuid_run m user_agent).max_attempts ∧
    1 ≤ (SyndigoClient.request (mkSyndigoClient base_url run_id uuid_run m user_agent)
          hs ik tr u U).attempts.length := by
  constructor
  · simp only [mkSyndigoClient]
    omega
  · exact request_attempts_pos _ _ _ _ _ _

/-- C6: a first attempt that returns 404 (non-retryable) ends the call after
exactly one physical attempt, with no sleep, returning that response. -/
theorem first_attempt_404_returns_immediately (c : SyndigoClient)
    (hs : List (String × String)) (ik : Option String) (tr : Nat → AttemptResult)
    (u : Nat → String) (U : Nat → ℚ → ℚ → ℚ) (r : Response)
    (h1 : tr 1 = AttemptResult.ok r) (h404 : r.status_code = 404) :
    (SyndigoClient.request c hs ik tr u U).attempts.length = 1 ∧
    (SyndigoClient.request c hs ik tr u U).sleeps = [] ∧
    (SyndigoClient.request c hs ik tr u U).outcome = CallOutcome.returned r := by
  have hnr : r.status_code ∈ NON_RETRYABLE_STATUS := by rw [h404]; decide
  rw [SyndigoClient.request, requestLoop_ok_nonretryable c hs ik tr u U h1 hnr]
  simp

/-- C6 witness: a client whose transport always yields 404. -/
theorem first_attempt_404_returns_immediately_witness :
    (SyndigoClient.request (witClient 3) [] none (fun _a => AttemptResult.ok resp404)
      witUuid witUniform).attempts.length = 1 ∧
    (SyndigoClient.request (witClient 3) [] none (fun _a => AttemptResult.ok resp404)
      witUuid witUniform).sleeps = [] ∧
    (SyndigoClient.request (witClient 3) [] none (fun _a => AttemptResult.ok resp404)
      witUuid witUniform).outcome = CallOutcome.returned resp404 :=
  first_attempt_404_returns_immediately (witClient 3) [] none _ witUuid witUniform
    resp404 rfl rfl

/-- C2: when every physical attempt returns status 503, the executor
performs exactly `max_attempts` attempts and then returns the final 503
response (no exception is raised: the outcome is `returned`). -/
theorem all_503_exhausts_and_returns_last (c : SyndigoClient)
    (hs : List (String × String)) (ik : Option String) (tr : Nat → AttemptResult)
    (u : Nat → String) (U : Nat → ℚ → ℚ → ℚ) (rs : Nat → Response)
    (htr : ∀ k, tr k = AttemptResult.ok (rs k))
    (h503 : ∀ k, (rs k).status_code = 503)
    (hmax : 1 ≤ c.max_attempts) :
    (SyndigoClient.request c hs ik tr u U).attempts.length = c.max_attempts ∧
    (SyndigoClient.request c hs ik tr u U).outcome =
      CallOutcome.returned (rs c.max_attempts) ∧
    (rs c.max_attempts).status_code = 503 := by
  have hst : ∀ k, (rs k).status_code ∈ RETRYABLE_STATUS := by
    intro k; rw [h503]; decide
  obtain ⟨hlen, hout⟩ := requestLoop_all_retryable c hs ik tr u U rs htr hst
    (c.max_attempts - 1) 1 none (by omega) (by omega)
  rw [SyndigoClient.request]
  exact ⟨by rw [hlen]; omega, hout, h503 _⟩

/-- C2 witness: three attempts, all 503. -/
theorem all_503_exhausts_and_returns_last_witness :
    (SyndigoClient.request (witClient 3) [] none (fun _a => AttemptResult.ok resp503)
      witUuid witUniform).attempts.length = (witClient 3).max_attempts ∧
    (SyndigoClient.request (witClient 3) [] none (fun _a => AttemptResult.ok resp503)
      witUuid witUniform).outcome = CallOutcome.returned resp503 ∧
    resp503.status_code = 503 :=
  all_503_exhausts_and_returns_last (witClient 3) [] none _ witUuid witUniform
    (fun _a => resp503) (fun _k => rfl) (fun _k => rfl) (by decide)

/-- C3: when every physical attempt fails at the transport level, the
executor performs exactly `max_attempts` attempts and then raises the
wrapping error carrying the last transport exception (no response, no
synthetic status). -/
theorem all_transport_failures_raise_last (c : SyndigoClient)
    (hs : List (String × String)) (ik : Option String) (tr : Nat → AttemptResult)
    (u : Nat → String) (U : Nat → ℚ → ℚ → ℚ) (es : Nat → TransportErr)
    (htr : ∀ k, tr k = AttemptResult.exn (es k))
    (hmax : 1 ≤ c.max_attempts) :
    (SyndigoClient.request c hs ik tr u U).attempts.length = c.max_attempts ∧
    (SyndigoClient.request c hs ik tr u U).outcome =
      CallOutcome.raisedNoResponse (es c.max_attempts) := by
  obtain ⟨hlen, hout⟩ := requestLoop_all_exn c hs ik tr u U es htr
    (c.max_attempts - 1) 1 (by omega) (by omega)
  rw [SyndigoClient.request]
  exact ⟨by rw [hlen]; omega, hout⟩

/-- C3 witness: three attempts, every one a connect timeout. -/
theorem all_transport_failures_raise_last_witness :
    (SyndigoClient.request (witClient 3) [] none
      (fun _a => AttemptResult.exn ⟨"ConnectTimeout"⟩)
      witUuid witUniform).attempts.length = (witClient 3).max_attempts ∧
    (SyndigoClient.request (witClient 3) [] none
      (fun _a => AttemptResult.exn ⟨"ConnectTimeout"⟩)
      witUuid witUniform).outcome = CallOutcome.raisedNoResponse ⟨"ConnectTimeout"⟩ :=
  all_transport_failures_raise_last (witClient 3) [] none _ witUuid witUniform
    (fun _k => ⟨"ConnectTimeout"⟩) (fun _k => rfl) (by decide)

/-- C7: with `max_attempts = 3`, a retryable first attempt (transport error
or retryable status) followed by a 200 on attempt 2 ends after exactly two
physical attempts and one sleep, returning the attempt-2 response. -/
theorem success_on_second_attempt (c : SyndigoClient)
    (hs : List (String × String)) (ik : Option String) (tr : Nat → AttemptResult)
    (u : Nat → String) (U : Nat → ℚ → ℚ → ℚ)
    (h3 : c.max_attempts = 3)
    (h1 : (∃ e, tr 1 = AttemptResult.exn e) ∨
      (∃ r, tr 1 = AttemptResult.ok r ∧ r.status_code ∈ RETRYABLE_STATUS))
    (r2 : Response) (h2 : tr 2 = AttemptResult.ok r2)
    (hs200 : r2.status_code = 200) :
    (SyndigoClient.request c hs ik tr u U).attempts.length = 2 ∧
    (SyndigoClient.request c hs ik tr u U).sleeps.length = 1 ∧
    (SyndigoClient.request c hs ik tr u U).outcome = CallOutcome.returned r2 := by
  have hsucc : 200 ≤ r2.status_code ∧ r2.status_code < 300 := by rw [hs200]; omega
  rw [SyndigoClient.request]
  rcases h1 with ⟨e, he⟩ | ⟨r, hr, hrs⟩
  · rw [requestLoop_exn_retry c hs ik tr u U he (by omega),
        requestLoop_ok_success c hs ik tr u U h2 hsucc]
    simp
  · rw [requestLoop_ok_retry c hs ik tr u U hr hrs (by omega),
        requestLoop_ok_success c hs ik tr u U h2 hsucc]
    simp

/-- C7 witness: 503 on attempt 1, 200 on attempt 2, limit 3. -/
theorem success_on_second_attempt_witness :
    (SyndigoClient.request (witClient 3) [] none
      (fun a => if a = 1 then AttemptResult.ok resp503 else AttemptResult.ok resp200)
      witUuid witUniform).attempts.length = 2 ∧
    (SyndigoClient.request (witClient 3) [] none
      (fun a => if a = 1 then AttemptResult.ok resp503 else AttemptResult.ok resp200)
      witUuid witUniform).sleeps.length = 1 ∧
    (SyndigoClient.request (witClient 3) [] none
      (fun a => if a = 1 then AttemptResult.ok resp503 else AttemptResult.ok resp200)
      witUuid witUniform).outcome = CallOutcome.returned resp200 :=
  success_on_second_attempt (witClient 3) [] none _ witUuid witUniform rfl
    (Or.inr ⟨resp503, rfl, by decide⟩) resp200 rfl rfl

lemma witUuid_inj : ∀ i j : Nat, i ≠ j → witUuid i ≠ witUuid j := by
  intro i j hne h
  apply hne
  have hlen := congrArg (fun s => s.data.length) h
  simpa [witUuid] using hlen

/-- C8: within one logical call with a truthy caller-supplied idempotency
key (and caller extra headers that do not override the two headers in
question), every physical attempt carries the same `Idempotency-Key` value,
while the `X-Request-ID` values of any two distinct physical attempts
differ (assuming the uuid oracle never collides). -/
theorem idempotency_key_stable_and_request_id_fresh (c : SyndigoClient)
    (hs : List (String × String)) (k : String) (tr : Nat → AttemptResult)
    (u : Nat → String) (U : Nat → ℚ → ℚ → ℚ)
    (hk : k ≠ "")
    (hinj : ∀ i j : Nat, i ≠ j → u i ≠ u j)
    (hh1 : ∀ p ∈ hs, p.1 ≠ "Idempotency-Key")
    (hh2 : ∀ p ∈ hs, p.1 ≠ "X-Request-ID") :
    (∀ rec ∈ (SyndigoClient.request c hs (some k) tr u U).attempts,
      dictGet rec.headers_sent "Idempotency-Key" = some k) ∧
    (∀ i j (hi : i < (SyndigoClient.request c hs (some k) tr u U).attempts.length)
        (hj : j < (SyndigoClient.request c hs (some k) tr u U).attempts.length),
      i ≠ j →
      dictGet ((SyndigoClient.request c hs (some k) tr u U).attempts.get
          ⟨i, hi⟩).headers_sent "X-Request-ID" ≠
        dictGet ((SyndigoClient.request c hs (some k) tr u U).attempts.get
          ⟨j, hj⟩).headers_sent "X-Request-ID") := by
  obtain ⟨m, hm, heq⟩ :=
    requestLoop_attempts_shape c hs (some k) tr u U c.max_attempts 1 none (by omega)
  have heq' : (SyndigoClient.request c hs (some k) tr u U).attempts =
      (List.range m).map
        (fun i => ⟨u (1 + i), mkOutHeaders c hs (some k) (u (1 + i)), tr (1 + i)⟩) := heq
  have hget : ∀ i (hi : i < (SyndigoClient.request c hs (some k) tr u U).attempts.length),
      (SyndigoClient.request c hs (some k) tr u U).attempts.get ⟨i, hi⟩ =
        ⟨u (1 + i), mkOutHeaders c hs (some k) (u (1 + i)), tr (1 + i)⟩ := by
    intro i hi
    have hi' : i < m := by
      have hlen := hi
      rw [heq'] at hlen
      simpa using hlen
    rw [List.get_eq_getElem, List.getElem_of_eq heq' hi]
    simp
  constructor
  · intro rec hrec
    rw [heq'] at hrec
    obtain ⟨i, hii, rfl⟩ := List.mem_map.mp hrec
    exact mkOutHeaders_idem_some c hs (u (1 + i)) k hk hh1
  · intro i j hi hj hne
    rw [hget i hi, hget j hj]
    show dictGet (mkOutHeaders c hs (some k) (u (1 + i))) "X-Request-ID" ≠
      dictGet (mkOutHeaders c hs (some k) (u (1 + j))) "X-Request-ID"
    rw [mkOutHeaders_xrid c hs (u (1 + i)) (some k) hh2,
        mkOutHeaders_xrid c hs (u (1 + j)) (some k) hh2]
    intro hcontra
    exact hinj (1 + i) (1 + j) (by omega) (Option.some_injective _ hcontra)

/-- C8 witness: a two-attempt call (503 then 503) with key abc. -/
theorem idempotency_key_stable_and_request_id_fresh_witness :
    ("abc" : String) ≠ "" ∧
    (∀ rec ∈ (SyndigoClient.request (witClient 2) [] (some "abc")
        (fun _a => AttemptResult.ok resp503) witUuid witUniform).attempts,
      dictGet rec.headers_sent "Idempotency-Key" = some "abc") ∧
    (∀ i j (hi : i < (SyndigoClient.request (witClient 2) [] (some "abc")
          (fun _a => AttemptResult.ok resp503) witUuid witUniform).attempts.length)
        (hj : j < (SyndigoClient.request (witClient 2) [] (some "abc")
          (fun _a => AttemptResult.ok resp503) witUuid witUniform).attempts.length),
      i ≠ j →
      dictGet (((SyndigoClient.request (witClient 2) [] (some "abc")
          (fun _a => AttemptResult.ok resp503) witUuid witUniform).attempts.get
          ⟨i, hi⟩).headers_sent) "X-Request-ID" ≠
        dictGet (((SyndigoClient.request (witClient 2) [] (some "abc")
          (fun _a => AttemptResult.ok resp503) witUuid witUniform).attempts.get
          ⟨j, hj⟩).headers_sent) "X-Request-ID") := by
  have h := idempotency_key_stable_and_request_id_fresh (witClient 2) [] "abc"
    (fun _a => AttemptResult.ok resp503) witUuid witUniform (by decide) witUuid_inj
    (by simp) (by simp)
  exact ⟨by decide, h.1, h.2⟩

/-- C10: when the caller supplies the empty string as idempotency key (a
falsy value in Python), no `Idempotency-Key` header is attached on any
physical attempt, provided the caller's extra headers do not contain one. -/
theorem empty_idempotency_key_attaches_no_header (c : SyndigoClient)
    (hs : List (String × String)) (tr : Nat → AttemptResult)
    (u : Nat → String) (U : Nat → ℚ → ℚ → ℚ)
    (hh : ∀ p ∈ hs, p.1 ≠ "Idempotency-Key") :
    ∀ rec ∈ (SyndigoClient.request c hs (some "") tr u U).attempts,
      dictGet rec.headers_sent "Idempotency-Key" = none := by
  obtain ⟨m, hm, heq⟩ :=
    requestLoop_attempts_shape c hs (some "") tr u U c.max_attempts 1 none (by omega)
  have heq' : (SyndigoClient.request c hs (some "") tr u U).attempts =
      (List.range m).map
        (fun i => ⟨u (1 + i), mkOutHeaders c hs (some "") (u (1 + i)), tr (1 + i)⟩) := heq
  intro rec hrec
  rw [heq'] at hrec
  obtain ⟨i, hii, rfl⟩ := List.mem_map.mp hrec
  exact mkOutHeaders_idem_empty c hs (u (1 + i)) hh

/-- C10 witness: a three-attempt call with an empty idempotency key and no
caller extra headers. -/
theorem empty_idempotency_key_attaches_no_header_witness :
    (∀ p ∈ ([] : List (String × String)), p.1 ≠ "Idempotency-Key") ∧
    (∀ rec ∈ (SyndigoClient.request (witClient 3) [] (some "")
        (fun _a => AttemptResult.ok resp503) witUuid witUniform).attempts,
      dictGet rec.headers_sent "Idempotency-Key" = none) :=
  ⟨by simp,
   empty_idempotency_key_attaches_no_header (witClient 3) []
    (fun _a => AttemptResult.ok resp503) witUuid witUniform (by simp)⟩

/-- C5 (amended): within one logical call, whenever the executor reaches a
physical attempt `a` before the last (every earlier attempt being retryable)
and attempt `a` returns a retryable response, the delay slept after attempt
`a` (the `a`-th sleep of the call) is: the Retry-After hint clamped to the
10-second upper bound when the header value parses to a positive number of
milliseconds after truncation (and lies below the double overflow
boundary); and the exponential-jittered delay for the current attempt index
`a` when the value is absent, empty, malformed, parses to a non-positive
millisecond count, or reaches the overflow boundary. -/
theorem retry_after_hint_clamped_else_backoff (c : SyndigoClient)
    (hs : List (String × String)) (ik : Option String) (tr : Nat → AttemptResult)
    (u : Nat → String) (U : Nat → ℚ → ℚ → ℚ) :
    (∀ (a : Nat) (r : Response) (v : String) (q : ℚ),
      1 ≤ a → a < c.max_attempts →
      (∀ k, 1 ≤ k → k < a →
        (∃ e, tr k = AttemptResult.exn e) ∨
        (∃ rk, tr k = AttemptResult.ok rk ∧ rk.status_code ∈ RETRYABLE_STATUS)) →
      tr a = AttemptResult.ok r → r.status_code ∈ RETRYABLE_STATUS →
      respHeaderGet r.headers "Retry-After" = some v → v ≠ "" →
      pyFloat v = some q → 0 < q → q * 1000 < floatOverflowThreshold →
      0 < pyInt (q * 1000) →
      (SyndigoClient.request c hs ik tr u U).sleeps[a - 1]? =
        some (((min 10000 (pyInt (q * 1000)) : Int) : ℚ) / 1000)) ∧
    (∀ (a : Nat) (r : Response),
      1 ≤ a → a < c.max_attempts →
      (∀ k, 1 ≤ k → k < a →
        (∃ e, tr k = AttemptResult.exn e) ∨
        (∃ rk, tr k = AttemptResult.ok rk ∧ rk.status_code ∈ RETRYABLE_STATUS)) →
      tr a = AttemptResult.ok r → r.status_code ∈ RETRYABLE_STATUS →
      (respHeaderGet r.headers "Retry-After" = none ∨
        respHeaderGet r.headers "Retry-After" = some "" ∨
        (∃ v, respHeaderGet r.headers "Retry-After" = some v ∧ pyFloat v = none) ∨
        (∃ v q, respHeaderGet r.headers "Retry-After" = some v ∧ pyFloat v = some q ∧
          pyInt (q * 1000) ≤ 0) ∨
        (∃ v q, respHeaderGet r.headers "Retry-After" = some v ∧ pyFloat v = some q ∧
          (floatOverflowThreshold ≤ q * 1000 ∨ q * 1000 ≤ -floatOverflowThreshold))) →
      (SyndigoClient.request c hs ik tr u U).sleeps[a - 1]? =
        some (backoff_delay (U a) a (1/2) 4)) := by
  constructor
  · intro a r v q h1a hlt hrange htr2 hrs hra hv hq hqpos hqthr hpos
    have hj : 1 + (a - 1) = a := by omega
    have h := requestLoop_sleeps_nth c hs ik tr u U (a - 1) 1 none
      (fun k hk1 hk2 => hrange k hk1 (by omega)) (by omega)
      r (by rw [hj]; exact htr2) hrs
    rw [hj] at h
    have hthr : (0:ℚ) < floatOverflowThreshold := by norm_num [floatOverflowThreshold]
    have hng : ¬(floatOverflowThreshold ≤ q * 1000 ∨ q * 1000 ≤ -floatOverflowThreshold) := by
      push_neg
      exact ⟨hqthr, by nlinarith⟩
    have hrams : retryAfterMs r = pyInt (q * 1000) := by
      simp [retryAfterMs, hrs, hra, hv, hq, hng]
    rw [SyndigoClient.request, h, hrams, if_pos hpos]
  · intro a r h1a hlt hrange htr2 hrs hbad
    have hj : 1 + (a - 1) = a := by omega
    have h := requestLoop_sleeps_nth c hs ik tr u U (a - 1) 1 none
      (fun k hk1 hk2 => hrange k hk1 (by omega)) (by omega)
      r (by rw [hj]; exact htr2) hrs
    rw [hj] at h
    have hrams : retryAfterMs r ≤ 0 := by
      rcases hbad with h0 | h0 | ⟨v, hv, hpf⟩ | ⟨v, q, hv, hpf, hnp⟩ | ⟨v, q, hv, hpf, hovf⟩
      · simp [retryAfterMs, hrs, h0]
      · simp [retryAfterMs, hrs, h0]
      · by_cases hv0 : v = ""
        · simp [retryAfterMs, hrs, hv, hv0]
        · simp [retryAfterMs, hrs, hv, hv0, hpf]
      · by_cases hv0 : v = ""
        · simp [retryAfterMs, hrs, hv, hv0]
        · by_cases hovf2 :
            floatOverflowThreshold ≤ q * 1000 ∨ q * 1000 ≤ -floatOverflowThreshold
          · simp [retryAfterMs, hrs, hv, hv0, hpf, hovf2]
          · simpa [retryAfterMs, hrs, hv, hv0, hpf, hovf2] using hnp
      · by_cases hv0 : v = ""
        · simp [retryAfterMs, hrs, hv, hv0]
        · simp [retryAfterMs, hrs, hv, hv0, hpf, hovf]
    rw [SyndigoClient.request, h, if_neg (by omega)]

/-- C5 witness: Retry-After 120 on a 429 first attempt gives the clamped
10-second next delay (min of 120000 ms and 10000 ms); the exponent form 1e2
on attempt 2 of a three-attempt call does too; a malformed value and a
value parsing to 0 ms both fall back to the exponential-jittered delay of
the current attempt index. -/
theorem retry_after_hint_clamped_else_backoff_witness :
    (SyndigoClient.request (witClient 2) [] none tr120 witUuid witUniform).sleeps[0]? =
      some (((min 10000 (pyInt ((120 : ℚ) * 1000)) : Int) : ℚ) / 1000) ∧
    ((min 10000 (pyInt ((120 : ℚ) * 1000)) : Int) : ℚ) / 1000 = 10 ∧
    (SyndigoClient.request (witClient 3) [] none tr2step witUuid witUniform).sleeps[1]? =
      some (((min 10000 (pyInt ((100 : ℚ) * 1000)) : Int) : ℚ) / 1000) ∧
    (SyndigoClient.request (witClient 2) [] none trSoon witUuid witUniform).sleeps[0]? =
      some (backoff_delay (witUniform 1) 1 (1/2) 4) ∧
    (SyndigoClient.request (witClient 2) [] none trZero witUuid witUniform).sleeps[0]? =
      some (backoff_delay (witUniform 1) 1 (1/2) 4) := by
  refine ⟨?_, by norm_num [pyInt], ?_, ?_, ?_⟩
  · exact (retry_after_hint_clamped_else_backoff (witClient 2) [] none tr120 witUuid
      witUniform).1 1 resp429RA120 "120" 120 (by norm_num) (by decide)
      (fun k hk1 hk2 => absurd hk2 (by omega)) rfl (by decide)
      (by simp [resp429RA120, respHeaderGet, List.find?]) (by decide)
      (by rw [show pyFloat "120" = some ((1 : ℚ) * ((120 : Nat) : ℚ)) from rfl]; norm_num)
      (by norm_num) (by norm_num [floatOverflowThreshold]) (by norm_num [pyInt])
  · exact (retry_after_hint_clamped_else_backoff (witClient 3) [] none tr2step witUuid
      witUniform).1 2 resp429Exp "1e2" 100 (by norm_num) (by decide)
      (fun k hk1 hk2 => by
        have hk : k = 1 := by omega
        subst hk
        exact Or.inr ⟨resp503, rfl, by decide⟩) rfl (by decide)
      (by simp [resp429Exp, respHeaderGet, List.find?]) (by decide)
      (by rw [show pyFloat "1e2" =
            some ((1 : ℚ) * ((1 : Nat) : ℚ) * (10 : ℚ) ^ (((2 : Nat) : Int))) from rfl]
          norm_num)
      (by norm_num) (by norm_num [floatOverflowThreshold]) (by norm_num [pyInt])
  · exact (retry_after_hint_clamped_else_backoff (witClient 2) [] none trSoon witUuid
      witUniform).2 1 resp429Soon (by norm_num) (by decide)
      (fun k hk1 hk2 => absurd hk2 (by omega)) rfl (by decide)
      (Or.inr (Or.inr (Or.inl
        ⟨"soon", by simp [resp429Soon, respHeaderGet, List.find?], rfl⟩)))
  · exact (retry_after_hint_clamped_else_backoff (witClient 2) [] none trZero witUuid
      witUniform).2 1 resp429Zero (by norm_num) (by decide)
      (fun k hk1 hk2 => absurd hk2 (by omega)) rfl (by decide)
      (Or.inr (Or.inr (Or.inr (Or.inl ⟨"0", 0,
        by simp [resp429Zero, respHeaderGet, List.find?],
        by rw [show pyFloat "0" = some ((1 : ℚ) * ((0 : Nat) : ℚ)) from rfl]; norm_num,
        by norm_num [pyInt]⟩))))

/-- C5 counterexample: Retry-After 0 on a 429 parses as a number of
seconds, yet the executor does not use the claimed min(hint, 10 s) = 0 s
delay: it falls back to the exponential-jittered delay (0.25 s here, with a
sampler returning the lower bound). -/
theorem retry_after_parse_zero_counterexample :
    pyFloat "0" = some 0 ∧
    (SyndigoClient.request (witClient 2) [] none trZero witUuid witUniform).sleeps =
      [1/4] ∧
    ((1 : ℚ)/4) ≠ ((min 10000 (pyInt ((0 : ℚ) * 1000)) : Int) : ℚ) / 1000 := by
  have h1 : trZero 1 = AttemptResult.ok resp429Zero := rfl
  have h2 : trZero 2 = AttemptResult.ok resp200 := rfl
  have hpf0 : pyFloat "0" = some 0 := by
    rw [show pyFloat "0" = some ((1 : ℚ) * ((0 : Nat) : ℚ)) from rfl]
    norm_num
  refine ⟨hpf0, ?_, by norm_num [pyInt]⟩
  rw [SyndigoClient.request,
      requestLoop_ok_retry (witClient 2) [] none trZero witUuid witUniform h1
        (by decide) (by decide),
      requestLoop_ok_success (witClient 2) [] none trZero witUuid witUniform h2
        (by decide)]
  have hr0 : retryAfterMs resp429Zero = 0 := by
    have hz : pyInt (0 : ℚ) = 0 := by norm_num [pyInt]
    have hthr : (0 : ℚ) < floatOverflowThreshold := by norm_num [floatOverflowThreshold]
    simp [retryAfterMs, resp429Zero, respHeaderGet, List.find?, hpf0, hz, hthr]
  simp only [hr0]
  norm_num [backoff_delay, witUniform]
